import Mathlib

/-!
Verification of `tools/cmake2meson.py`: a shallow embedding of its lexer,
recursive-descent parser and converter, together with theorems about the
behaviour of the translation pipeline.

Conventions of the embedding:
* Python strings are `String`, scanned as `List Char`.
* The regular expressions of `Lexer.token_specification` are transcribed as
  explicit anchored matchers (`matchIgnore`, `matchString`, ...), tried in the
  same order as in the source.
* Generators are replaced by eager lists; exceptions by `Except`.  The Python
  code lexes and parses lazily while converting; here a file is lexed and
  parsed in full before conversion, which agrees with the source whenever the
  whole file lexes and parses successfully (the only situations studied here).
* Recursions whose termination is not structural take an explicit fuel
  argument; all theorems either quantify over the fuel or use a concrete
  sufficient fuel.
-/

namespace cmake2meson

/-- Python class `Token`: `__init__(self, tid, value)` stores the token kind
and text and initialises `self.lineno = 0` and `self.colno = 0`.  Nothing in
the program ever assigns to `lineno`/`colno` afterwards. -/
structure Token where
  tid : String
  value : String
  lineno : Nat
  colno : Nat
  deriving DecidableEq, Repr

/-- `Token(tid, value)`: the only way tokens are created in the source. -/
def mkToken (tid value : String) : Token :=
  { tid := tid, value := value, lineno := 0, colno := 0 }

/-- An element of a `Statement`'s argument list.  The parser appends plain
tokens (`tok`), nested argument lists produced by parenthesised groups
(`group`), and — only for comment statements — the raw comment text string
(`str`, from `Statement('_', [cur.value])`). -/
inductive Arg where
  | tok (t : Token)
  | group (args : List Arg)
  | str (s : String)

/-- Python class `Statement`. -/
structure Statement where
  name : String
  args : List Arg

namespace Lexer

/-- Character class of the `varexp` pattern `\$\x7b[-_0-9a-z/A-Z.]+\x7d`. -/
def varexpClass (c : Char) : Bool :=
  c = '-' || c = '_' || (c ≥ '0' && c ≤ '9') || (c ≥ 'a' && c ≤ 'z') ||
  c = '/' || (c ≥ 'A' && c ≤ 'Z') || c = '.'

/-- Character class of the `id` pattern `[,-><$\x7b\x7d=+_0-9a-z/A-Z@.*]+`.
Inside the bracket expression, `,->` is the range from `,` (code 44) to `>`
(code 62). -/
def idClass (c : Char) : Bool :=
  (c.toNat ≥ 44 && c.toNat ≤ 62) || c = '<' || c = '$' || c = '\x7b' ||
  c = '\x7d' || c = '=' || c = '+' || c = '_' ||
  (c ≥ '0' && c ≤ '9') || (c ≥ 'a' && c ≤ 'z') || c = '/' ||
  (c ≥ 'A' && c ≤ 'Z') || c = '@' || c = '.' || c = '*'

/-- Matcher for the body of the `string` pattern `"([^\\]|(\\.))*?"` after the
opening quote: the lazy repetition closes at the first `"` not consumed by an
escape `\\.`; `\\.` cannot consume a newline (`.` does not match `\n`) and a
lone trailing backslash matches nothing.  Returns the body (escapes kept
verbatim) and the characters after the closing quote. -/
def stringBody : List Char → Option (List Char × List Char)
  | [] => none
  | c :: cs =>
    if c = '"' then some ([], cs)
    else if c = '\\' then
      match cs with
      | [] => none
      | c2 :: cs2 =>
        if c2 = '\n' then none
        else (stringBody cs2).map (fun p => (c :: c2 :: p.1, p.2))
    else (stringBody cs).map (fun p => (c :: p.1, p.2))

/-- One anchored-match attempt.  `some (t?, rest)` means the pattern matched,
producing token `t?` (`none` for the tokenless `ignore`/`eol` patterns) and
leaving `rest` unconsumed. -/
abbrev MatchResult := Option (Option Token × List Char)

/-- Pattern `ignore`: `[ \t]`. -/
def matchIgnore : List Char → MatchResult
  | [] => none
  | c :: cs => if c = ' ' || c = '\t' then some (none, cs) else none

/-- Pattern `string`: `"([^\\]|(\\.))*?"`; the token value is the match text
with the surrounding quotes stripped (`match_text[1:-1]`). -/
def matchString : List Char → MatchResult
  | [] => none
  | c :: cs =>
    if c = '"' then
      (stringBody cs).map (fun p => (some (mkToken "string" p.1.asString), p.2))
    else none

/-- Pattern `varexp`: `\$\x7b[-_0-9a-z/A-Z.]+\x7d`; the token value is the
match text with `$\x7b` and `\x7d` stripped (`match_text[2:-1]`). -/
def matchVarexp : List Char → MatchResult
  | c1 :: c2 :: cs =>
    if c1 = '$' && c2 = '\x7b' then
      let run := cs.takeWhile varexpClass
      let rest := cs.dropWhile varexpClass
      if run = [] then none
      else if rest.head? = some '\x7d' then
        some (some (mkToken "varexp" run.asString), rest.tail)
      else none
    else none
  | _ => none

/-- Pattern `id`: greedy maximal run of `idClass` characters. -/
def matchId : List Char → MatchResult
  | [] => none
  | c :: cs =>
    if idClass c then
      some (some (mkToken "id" ((c :: cs).takeWhile idClass).asString),
            (c :: cs).dropWhile idClass)
    else none

/-- Pattern `eol`: `\n`; advances bookkeeping, yields no token. -/
def matchEol : List Char → MatchResult
  | [] => none
  | c :: cs => if c = '\n' then some (none, cs) else none

/-- Pattern `comment`: `\#.*`; the token value is the whole match including
the leading `#`. -/
def matchComment : List Char → MatchResult
  | [] => none
  | c :: cs =>
    if c = '#' then
      some (some (mkToken "comment" (c :: cs.takeWhile (fun x => x != '\n')).asString),
            cs.dropWhile (fun x => x != '\n'))
    else none

/-- Pattern `lparen`: `\(`. -/
def matchLparen : List Char → MatchResult
  | [] => none
  | c :: cs => if c = '(' then some (some (mkToken "lparen" "("), cs) else none

/-- Pattern `rparen`: `\)`. -/
def matchRparen : List Char → MatchResult
  | [] => none
  | c :: cs => if c = ')' then some (some (mkToken "rparen" ")"), cs) else none

inductive LexErr where
  | confused
  | noFuel
  deriving DecidableEq, Repr

/-- One iteration of the `while` loop of `Lexer.lex`: the patterns of
`token_specification` are tried in order; if none matches the lexer raises
`RuntimeError('Lexer got confused ...')`. -/
def lexStep (cs : List Char) : Except LexErr (Option Token × List Char) :=
  match matchIgnore cs <|> matchString cs <|> matchVarexp cs <|> matchId cs <|>
        matchEol cs <|> matchComment cs <|> matchLparen cs <|> matchRparen cs with
  | some r => .ok r
  | none => .error .confused

/-- The lexing loop.  Every successful `lexStep` consumes at least one
character, so fuel `length + 1` always suffices. -/
def lexAux : Nat → List Char → Except LexErr (List Token)
  | _, [] => .ok []
  | 0, _ :: _ => .error .noFuel
  | fuel + 1, cs =>
    match lexStep cs with
    | .error e => .error e
    | .ok (t?, rest) =>
      match lexAux fuel rest with
      | .error e => .error e
      | .ok toks =>
        .ok (match t? with
             | some t => t :: toks
             | none => toks)

/-- `Lexer().lex(code)`, with the generator materialised as a list. -/
def lex (code : String) : Except LexErr (List Token) :=
  lexAux (code.length + 1) code.data

end Lexer

namespace Parser

/-- The explicitly reported part of the `RuntimeError` raised by
`Parser.expect`: `('Expecting %s got %s.' % (s, self.current.tid),
self.current.lineno, self.current.colno)`. -/
structure SynErr where
  expected : String
  got : String
  lineno : Nat
  colno : Nat
  deriving DecidableEq, Repr

inductive PErr where
  | syn (e : SynErr)
  | noFuel
  deriving DecidableEq, Repr

/-- `self.current`: the head of the remaining token stream, or the synthetic
`Token('eof', '')` produced by `getsym` once the stream is exhausted. -/
def curTok : List Token → Token
  | [] => mkToken "eof" ""
  | t :: _ => t

/-- `Parser.expect(s)`: consume the current token if its kind is `s`,
otherwise raise.  Returns the remaining stream. -/
def expectT (s : String) (ts : List Token) : Except PErr (List Token) :=
  if (curTok ts).tid = s then .ok ts.tail
  else .error (.syn ⟨s, (curTok ts).tid, (curTok ts).lineno, (curTok ts).colno⟩)

/-- `Parser.arguments`: optionally a parenthesised nested argument list, then
optionally one `string`/`varexp`/`id` token followed recursively by the rest.
Fuel-indexed; each recursive call follows the consumption of one token. -/
def arguments : Nat → List Token → Except PErr (List Arg × List Token)
  | 0, _ => .error .noFuel
  | fuel + 1, ts =>
    match (if (curTok ts).tid = "lparen" then
             match arguments fuel ts.tail with
             | .error e => .error e
             | .ok (inner, ts1) =>
               match expectT "rparen" ts1 with
               | .error e => .error e
               | .ok ts2 => .ok ([Arg.group inner], ts2)
           else .ok ([], ts) : Except PErr (List Arg × List Token)) with
    | .error e => .error e
    | .ok (args0, ts2) =>
      let arg := curTok ts2
      if arg.tid = "string" ∨ arg.tid = "varexp" ∨ arg.tid = "id" then
        match arguments fuel ts2.tail with
        | .error e => .error e
        | .ok (rest, ts3) => .ok (args0 ++ Arg.tok arg :: rest, ts3)
      else .ok (args0, ts2)

/-- `Parser.statement`: a lone comment token becomes `Statement('_',
[cur.value])`; otherwise an optional `id` is accepted (its presence is not
required), a `(` is demanded, arguments are collected and a `)` is demanded;
the statement's name is the text of whatever token was current on entry. -/
def statement (fuel : Nat) (ts : List Token) :
    Except PErr (Statement × List Token) :=
  let cur := curTok ts
  if cur.tid = "comment" then .ok (⟨"_", [Arg.str cur.value]⟩, ts.tail)
  else
    let ts1 := if (curTok ts).tid = "id" then ts.tail else ts
    match expectT "lparen" ts1 with
    | .error e => .error e
    | .ok ts2 =>
      match arguments fuel ts2 with
      | .error e => .error e
      | .ok (args, ts3) =>
        match expectT "rparen" ts3 with
        | .error e => .error e
        | .ok ts4 => .ok (⟨cur.value, args⟩, ts4)

/-- `Parser.parse`: statements until the synthetic `eof` token is accepted. -/
def parseAux : Nat → List Token → Except PErr (List Statement)
  | 0, ts => if (curTok ts).tid = "eof" then .ok [] else .error .noFuel
  | fuel + 1, ts =>
    if (curTok ts).tid = "eof" then .ok []
    else
      match statement fuel ts with
      | .error e => .error e
      | .ok (s, ts1) =>
        match parseAux fuel ts1 with
        | .error e => .error e
        | .ok rest => .ok (s :: rest)

/-- Every statement consumes at least one token before any recursive descent,
so fuel `length + 2` always suffices. -/
def parse (ts : List Token) : Except PErr (List Statement) :=
  parseAux (ts.length + 2) ts

end Parser

namespace Converter

inductive PyError where
  | attributeError
  | indexError
  | unknownArgType
  | typeError
  deriving DecidableEq, Repr

/-- Attribute access `a.value`: a Python `AttributeError` unless `a` is a
`Token`. -/
def Arg.value? : Arg → Except PyError String
  | .tok t => .ok t.value
  | _ => .error .attributeError

/-- Attribute access `a.tid`, likewise. -/
def Arg.tid? : Arg → Except PyError String
  | .tok t => .ok t.tid
  | _ => .error .attributeError

/-- Subscript `args[i]`: `IndexError` when out of range. -/
def argAt (l : List Arg) (i : Nat) : Except PyError Arg :=
  match l[i]? with
  | some a => .ok a
  | none => .error .indexError

/-- `line.endswith('\n')`: the last character is a newline. -/
def endsNL (s : String) : Bool :=
  s.data.getLast? == some '\n'

/-- `"'%s'" % s`. -/
def quoteS (s : String) : String := "'" ++ s ++ "'"

/-- `s.lower()`: per-character lowercasing (the token texts this program
manipulates are ASCII, where this agrees with Python). -/
def lowerS (s : String) : String := ⟨s.data.map Char.toLower⟩

/-- `Converter.ignored_funcs`. -/
def ignored_funcs : List String :=
  ["cmake_minimum_required", "enable_testing", "include"]

/-- The loop body of `Converter.convert_args`: one rendered string per
argument; `i.tid` raises `AttributeError` on a nested list or a plain string,
and a token kind outside `id`/`varexp`/`string` raises
`RuntimeError('Unknown arg type.')`. -/
def convertArgsAux : List Arg → Except PyError (List String)
  | [] => .ok []
  | Arg.tok t :: rest =>
    if t.tid = "id" then
      (convertArgsAux rest).map (fun r => quoteS t.value :: r)
    else if t.tid = "varexp" then
      (convertArgsAux rest).map (fun r => t.value :: r)
    else if t.tid = "string" then
      (convertArgsAux rest).map (fun r => quoteS t.value :: r)
    else .error .unknownArgType
  | Arg.group _ :: _ => .error .attributeError
  | Arg.str _ :: _ => .error .attributeError

/-- `Converter.convert_args`: bracketed comma-join when more than one rendered
value, the bare value when exactly one, empty otherwise. -/
def convert_args (args : List Arg) : Except PyError String :=
  match convertArgsAux args with
  | .error e => .error e
  | .ok res =>
    if res.length > 1 then .ok ("[" ++ String.intercalate ", " res ++ "]")
    else
      match res with
      | [r] => .ok r
      | _ => .ok ""

/-- `["dependency('%s')" % i.value for i in t.args[1:]]`. -/
def depExprs : List Arg → Except PyError (List String)
  | [] => .ok []
  | a :: rest =>
    match Arg.value? a, depExprs rest with
    | .error e, _ => .error e
    | .ok _, .error e => .error e
    | .ok v, .ok others => .ok (("dependency('" ++ v ++ "')") :: others)

/-- The `project` loop: `l = l.value.lower(); if l == 'cxx': l = 'cpp'`. -/
def projLangs : List Arg → Except PyError (List String)
  | [] => .ok []
  | a :: rest =>
    match Arg.value? a, projLangs rest with
    | .error e, _ => .error e
    | .ok _, .error e => .error e
    | .ok v, .ok others =>
      .ok ((if lowerS v = "cxx" then "cpp" else lowerS v) :: others)

/-- The `line` computed by `Converter.write_entry` for a non-ignored
statement, branch by branch as in the source. -/
def writeEntryLine (t : Statement) : Except PyError String :=
  if t.name = "_" then
    match t.args.head? with
    | some (Arg.str s) => .ok s
    | some _ => .error .typeError
    | none => .error .indexError
  else if t.name = "add_subdirectory" then
    match argAt t.args 0 with
    | .error e => .error e
    | .ok a =>
      match Arg.value? a with
      | .error e => .error e
      | .ok v => .ok ("subdir('" ++ v ++ "')")
  else if t.name = "pkg_search_module" ∨ t.name = "pkg_search_modules" then
    match argAt t.args 0 with
    | .error e => .error e
    | .ok a =>
      match Arg.value? a with
      | .error e => .error e
      | .ok v =>
        match depExprs (t.args.drop 1) with
        | .error e => .error e
        | .ok mods =>
          match mods with
          | [m] => .ok (lowerS v ++ " = " ++ m)
          | _ => .ok (lowerS v ++ " = [" ++
                      String.intercalate ", " (mods.map quoteS) ++ "]")
  else if t.name = "find_package" then
    match argAt t.args 0 with
    | .error e => .error e
    | .ok a =>
      match Arg.value? a with
      | .error e => .error e
      | .ok v => .ok (v ++ "_dep = dependency(" ++ v ++ ")")
  else if t.name = "project" then
    match argAt t.args 0 with
    | .error e => .error e
    | .ok a =>
      match Arg.value? a with
      | .error e => .error e
      | .ok pname =>
        match projLangs (t.args.drop 1) with
        | .error e => .error e
        | .ok langs =>
          .ok ("project(" ++
               String.intercalate ", " ((pname :: langs).map quoteS) ++ ")")
  else if t.name = "set" then
    match argAt t.args 0 with
    | .error e => .error e
    | .ok a =>
      match Arg.value? a with
      | .error e => .error e
      | .ok v =>
        match convert_args (t.args.drop 1) with
        | .error e => .error e
        | .ok rhs => .ok (lowerS v ++ " = " ++ rhs ++ "\n")
  else .ok ("# " ++ t.name)

/-- `self.indent_level*self.indent_unit` (the level is never changed from 0
anywhere in the source, but the computation is kept). -/
def indentStr (level : Nat) : String :=
  String.join (List.replicate level "  ")

/-- `Converter.write_entry`: ignored commands write nothing at all (`none`);
otherwise the indent, the line, and — unless the line already ends with a
newline — a final newline are written. -/
def write_entry (indentLevel : Nat) (t : Statement) :
    Except PyError (Option String) :=
  if t.name ∈ ignored_funcs then .ok none
  else
    match writeEntryLine t with
    | .error e => .error e
    | .ok line =>
      .ok (some (indentStr indentLevel ++ line ++
                 (if endsNL line then "" else "\n")))

/-- `os.path.join(a, b)` for the shapes reachable here. -/
def osJoin (a b : String) : String :=
  if b.startsWith "/" then b
  else if a = "" then b
  else if a.endsWith "/" then a ++ b
  else a ++ "/" ++ b

/-- Observable filesystem / console effects of `Converter.convert`, in
chronological order. -/
inductive Event where
  | warn (subdir : String)
  | openOut (subdir : String)
  | writeChunk (subdir : String) (chunk : String)

inductive ConvErr where
  | lexErr (e : Lexer.LexErr)
  | parseErr (e : Parser.PErr)
  | pyErr (e : PyError)
  | noFuel

mutual

/-- `Converter.convert(subdir)` (with the root-defaulting of the argument done
by the caller): read `subdir/CMakeLists.txt` from `fs`; on
`FileNotFoundError` print a warning and return; otherwise parse it, open
`subdir/meson.build` and process the statements in order. -/
def convert (fuel : Nat) (fs : String → Option String) (subdir : String) :
    Except ConvErr (List Event) :=
  match fuel with
  | 0 => .error .noFuel
  | fuel' + 1 =>
    match fs subdir with
    | none => .ok [.warn subdir]
    | some code =>
      match Lexer.lex code with
      | .error e => .error (.lexErr e)
      | .ok ts =>
        match Parser.parse ts with
        | .error e => .error (.parseErr e)
        | .ok stmts =>
          match convertStmts fuel' fs subdir stmts with
          | .error e => .error e
          | .ok evs => .ok (.openOut subdir :: evs)
  termination_by (fuel, 0)

/-- The `for t in p.parse():` loop body: an `add_subdirectory` statement first
recurses into `os.path.join(subdir, t.args[0].value)`, and every statement is
then passed to `write_entry`. -/
def convertStmts (fuel : Nat) (fs : String → Option String) (subdir : String)
    (l : List Statement) : Except ConvErr (List Event) :=
  match l with
  | [] => .ok []
  | t :: rest =>
    match (if t.name = "add_subdirectory" then
             match argAt t.args 0 with
             | .error e => .error (.pyErr e)
             | .ok a =>
               match Arg.value? a with
               | .error e => .error (.pyErr e)
               | .ok d => convert fuel fs (osJoin subdir d)
           else .ok [] : Except ConvErr (List Event)) with
    | .error e => .error e
    | .ok subEvs =>
      match write_entry 0 t with
      | .error e => .error (.pyErr e)
      | .ok chunk? =>
        match convertStmts fuel fs subdir rest with
        | .error e => .error e
        | .ok restEvs =>
          .ok (subEvs ++
               (match chunk? with
                | some c => [Event.writeChunk subdir c]
                | none => []) ++ restEvs)
  termination_by (fuel, l.length + 1)

end

end Converter

/-! ## Helper lemmas -/

section Helpers

open Lexer Parser Converter

theorem endsNL_close_paren (s : String) : endsNL (s ++ "')") = false := by
  unfold endsNL
  rw [String.data_append, List.getLast?_append]
  rfl

theorem endsNL_newline (s : String) : endsNL (s ++ "\n") = true := by
  unfold endsNL
  rw [String.data_append, List.getLast?_append]
  rfl

theorem takeWhile_all_append {α : Type} {p : α → Bool} (d : α) (r : List α) :
    ∀ s : List α, (∀ c ∈ s, p c = true) → p d = false →
      (s ++ d :: r).takeWhile p = s := by
  intro s hs hd
  induction s with
  | nil => simp [List.takeWhile_cons, hd]
  | cons a tl ih =>
    have ha : p a = true := hs a (List.mem_cons_self a tl)
    simp only [List.cons_append, List.takeWhile_cons, ha, if_true]
    rw [ih (fun c hc => hs c (List.mem_cons_of_mem a hc))]

theorem dropWhile_all_append {α : Type} {p : α → Bool} (d : α) (r : List α) :
    ∀ s : List α, (∀ c ∈ s, p c = true) → p d = false →
      (s ++ d :: r).dropWhile p = d :: r := by
  intro s hs hd
  induction s with
  | nil => simp [List.dropWhile_cons, hd]
  | cons a tl ih =>
    have ha : p a = true := hs a (List.mem_cons_self a tl)
    simp only [List.cons_append, List.dropWhile_cons, ha, if_true]
    exact ih (fun c hc => hs c (List.mem_cons_of_mem a hc))

/-- The parser only ever places tokens of kind `string`, `varexp` or `id`
directly into an argument list (nested groups and, for comment statements,
raw strings being the other possible elements). -/
def ArgsGood (l : List Arg) : Prop :=
  ∀ t : Token, Arg.tok t ∈ l →
    t.tid = "string" ∨ t.tid = "varexp" ∨ t.tid = "id"

theorem argsGood_nil : ArgsGood [] := by
  intro t ht
  cases ht

theorem argsGood_group (inner : List Arg) : ArgsGood [Arg.group inner] := by
  intro t ht
  rw [List.mem_singleton] at ht
  simp at ht

theorem argsGood_str (s : String) : ArgsGood [Arg.str s] := by
  intro t ht
  rw [List.mem_singleton] at ht
  simp at ht

theorem argsGood_append {l1 l2 : List Arg} (h1 : ArgsGood l1)
    (h2 : ArgsGood l2) : ArgsGood (l1 ++ l2) := by
  intro t ht
  rcases List.mem_append.mp ht with h | h
  · exact h1 t h
  · exact h2 t h

theorem argsGood_cons_tok {t0 : Token} {l : List Arg}
    (h0 : t0.tid = "string" ∨ t0.tid = "varexp" ∨ t0.tid = "id")
    (h : ArgsGood l) : ArgsGood (Arg.tok t0 :: l) := by
  intro t ht
  rcases List.mem_cons.mp ht with heq | hmem
  · injection heq with h'
    subst h'
    exact h0
  · exact h t hmem

theorem argsGood_drop {l : List Arg} (h : ArgsGood l) (n : Nat) :
    ArgsGood (l.drop n) := by
  intro t ht
  exact h t (List.mem_of_mem_drop ht)

theorem arguments_good :
    ∀ (fuel : Nat) (ts : List Token) (args : List Arg) (ts' : List Token),
      arguments fuel ts = .ok (args, ts') → ArgsGood args := by
  intro fuel
  induction fuel with
  | zero => intro ts args ts' h; simp [arguments] at h
  | succ n ih =>
    intro ts args ts' h
    rw [arguments] at h
    rcases hpre : (if (curTok ts).tid = "lparen" then
        match arguments n ts.tail with
        | .error e => .error e
        | .ok (inner, ts1) =>
          match expectT "rparen" ts1 with
          | .error e => .error e
          | .ok ts2 => .ok ([Arg.group inner], ts2)
      else .ok ([], ts) : Except PErr (List Arg × List Token)) with e | ⟨args0, ts2⟩
    · rw [hpre] at h
      simp at h
    · rw [hpre] at h
      have hgood0 : ArgsGood args0 := by
        by_cases hlp : (curTok ts).tid = "lparen"
        · rw [if_pos hlp] at hpre
          rcases hrec : arguments n ts.tail with e1 | ⟨inner, ts1⟩
          · rw [hrec] at hpre; simp at hpre
          · rw [hrec] at hpre
            dsimp only at hpre
            rcases hex : expectT "rparen" ts1 with e2 | ts2'
            · rw [hex] at hpre; simp at hpre
            · rw [hex] at hpre
              dsimp only at hpre
              simp only [Except.ok.injEq, Prod.mk.injEq] at hpre
              rw [← hpre.1]
              exact argsGood_group inner
        · rw [if_neg hlp] at hpre
          simp only [Except.ok.injEq, Prod.mk.injEq] at hpre
          rw [← hpre.1]
          exact argsGood_nil
      dsimp only at h
      by_cases hcond :
          (curTok ts2).tid = "string" ∨ (curTok ts2).tid = "varexp" ∨
          (curTok ts2).tid = "id"
      · rw [if_pos hcond] at h
        rcases hrec : arguments n ts2.tail with e1 | ⟨rest, ts3⟩
        · rw [hrec] at h; simp at h
        · rw [hrec] at h
          dsimp only at h
          simp only [Except.ok.injEq, Prod.mk.injEq] at h
          rw [← h.1]
          exact argsGood_append hgood0 (argsGood_cons_tok hcond (ih _ _ _ hrec))
      · rw [if_neg hcond] at h
        simp only [Except.ok.injEq, Prod.mk.injEq] at h
        rw [← h.1]
        exact hgood0

theorem statement_good (fuel : Nat) (ts : List Token) (s : Statement)
    (ts' : List Token) (h : statement fuel ts = .ok (s, ts')) :
    ArgsGood s.args := by
  rw [statement] at h
  by_cases hc : (curTok ts).tid = "comment"
  · rw [if_pos hc] at h
    simp only [Except.ok.injEq, Prod.mk.injEq] at h
    rw [← h.1]
    exact argsGood_str _
  · rw [if_neg hc] at h
    dsimp only at h
    rcases hex : expectT "lparen"
        (if (curTok ts).tid = "id" then ts.tail else ts) with e | ts2
    · rw [hex] at h; simp at h
    · rw [hex] at h
      dsimp only at h
      rcases hargs : arguments fuel ts2 with e1 | ⟨args, ts3⟩
      · rw [hargs] at h; simp at h
      · rw [hargs] at h
        dsimp only at h
        rcases hex2 : expectT "rparen" ts3 with e2 | ts4
        · rw [hex2] at h; simp at h
        · rw [hex2] at h
          dsimp only at h
          simp only [Except.ok.injEq, Prod.mk.injEq] at h
          rw [← h.1]
          exact arguments_good _ _ _ _ hargs

theorem parseAux_good :
    ∀ (fuel : Nat) (ts : List Token) (stmts : List Statement),
      parseAux fuel ts = .ok stmts → ∀ s ∈ stmts, ArgsGood s.args := by
  intro fuel
  induction fuel with
  | zero =>
    intro ts stmts h s hs
    rw [parseAux] at h
    by_cases he : (curTok ts).tid = "eof"
    · rw [if_pos he] at h
      simp only [Except.ok.injEq] at h
      rw [← h] at hs
      cases hs
    · rw [if_neg he] at h
      simp at h
  | succ n ih =>
    intro ts stmts h s hs
    rw [parseAux] at h
    by_cases he : (curTok ts).tid = "eof"
    · rw [if_pos he] at h
      simp only [Except.ok.injEq] at h
      rw [← h] at hs
      cases hs
    · rw [if_neg he] at h
      rcases hst : statement n ts with e | ⟨st, ts1⟩
      · rw [hst] at h; simp at h
      · rw [hst] at h
        dsimp only at h
        rcases hrest : parseAux n ts1 with e1 | rest
        · rw [hrest] at h; simp at h
        · rw [hrest] at h
          dsimp only at h
          simp only [Except.ok.injEq] at h
          rw [← h] at hs
          rcases List.mem_cons.mp hs with heq | hmem
          · rw [heq]
            exact statement_good _ _ _ _ hst
          · exact ih _ _ hrest s hmem

theorem convertArgsAux_ne_unknown :
    ∀ args : List Arg, ArgsGood args →
      convertArgsAux args ≠ .error PyError.unknownArgType := by
  intro args
  induction args with
  | nil => intro _ h; simp [convertArgsAux] at h
  | cons a rest ih =>
    intro hgood h
    match a with
    | Arg.tok t =>
      have ht := hgood t (List.mem_cons_self _ _)
      have hrest : ArgsGood rest := fun u hu => hgood u (List.mem_cons_of_mem _ hu)
      rw [convertArgsAux] at h
      rcases hr : convertArgsAux rest with e | r
      · rcases ht with ht | ht | ht <;> simp only [ht] at h <;> simp at h <;>
          rw [hr] at h <;> simp [Except.map] at h <;>
          exact ih hrest (by rw [hr, h])
      · rcases ht with ht | ht | ht <;> simp only [ht] at h <;> simp at h <;>
          rw [hr] at h <;> simp [Except.map] at h
    | Arg.group l => simp [convertArgsAux] at h
    | Arg.str s => simp [convertArgsAux] at h

theorem depExprs_map_tok (l : List Token) :
    depExprs (l.map Arg.tok) =
      .ok (l.map fun m => "dependency('" ++ m.value ++ "')") := by
  induction l with
  | nil => rfl
  | cons m tl ih => simp [depExprs, Arg.value?, ih]

theorem projLangs_map_tok (l : List Token) :
    projLangs (l.map Arg.tok) =
      .ok (l.map fun t =>
        if lowerS t.value = "cxx" then "cpp" else lowerS t.value) := by
  induction l with
  | nil => rfl
  | cons m tl ih => simp [projLangs, Arg.value?, ih]

end Helpers

/-! ## The claims -/

section Claims

open Lexer Parser Converter

/-- C2 (counterexample): with no `CMakeLists.txt` anywhere, converting the
root directory is not fatal — `convert` catches the `FileNotFoundError`,
prints the warning and returns normally, so the run completes successfully
with a warning as its only effect. -/
theorem c2_counterexample :
    Converter.convert 1 (fun _ => none) "root" =
      .ok [Converter.Event.warn "root"] := by
  rw [Converter.convert.eq_def]

/-- C2 (amended): a missing input file in the directory selected on the
command line is handled exactly like a missing subdirectory input file: the
run prints a warning naming the directory, produces no output file, and
completes as a successful run (no abort). -/
theorem c2_missing_root_is_recoverable (fuel : Nat)
    (fs : String → Option String) (root : String)
    (h1 : fs root = none) (h2 : 0 < fuel) :
    Converter.convert fuel fs root = .ok [Converter.Event.warn root] := by
  obtain ⟨m, rfl⟩ : ∃ m, fuel = m + 1 := ⟨fuel - 1, by omega⟩
  rw [Converter.convert.eq_def]
  try dsimp only
  rw [h1]

/-- Witness for C2's amended theorem at a concrete input. -/
theorem c2_missing_root_is_recoverable_witness :
    Converter.convert 1 (fun _ => none) "" = .ok [Converter.Event.warn ""] :=
  c2_missing_root_is_recoverable 1 (fun _ => none) "" rfl (by decide)

/-- C4: tokens do NOT carry the line and column at which they were matched:
the lexer computes line/column bookkeeping but never stores it on tokens, so
a token matched on line 3 still carries `lineno = 0`, `colno = 0`, and the
`RuntimeError` raised by `Parser.expect` consequently always reports position
`(0, 0)` alongside the expected-versus-found kinds. -/
theorem c4_positions_always_zero :
    Lexer.lex "\n\nfoo" =
        .ok [{ tid := "id", value := "foo", lineno := 0, colno := 0 }] ∧
    Lexer.lex "set(x" =
        .ok [mkToken "id" "set", mkToken "lparen" "(", mkToken "id" "x"] ∧
    Parser.parse [mkToken "id" "set", mkToken "lparen" "(", mkToken "id" "x"] =
        .error (.syn { expected := "rparen", got := "eof",
                       lineno := 0, colno := 0 }) :=
  ⟨rfl, rfl, rfl⟩

/-- C6: lexing `set(SOURCES "a.c" "b.c")` yields exactly the token sequence
Identifier(set), LParen, Identifier(SOURCES), String(a.c), String(b.c),
RParen; parsing it yields the single `set` statement, and converting that
statement emits exactly the line `sources = ['a.c', 'b.c']`. -/
theorem c6_set_sources_example :
    Lexer.lex "set(SOURCES \"a.c\" \"b.c\")" =
        .ok [mkToken "id" "set", mkToken "lparen" "(",
             mkToken "id" "SOURCES", mkToken "string" "a.c",
             mkToken "string" "b.c", mkToken "rparen" ")"] ∧
    Parser.parse [mkToken "id" "set", mkToken "lparen" "(",
                  mkToken "id" "SOURCES", mkToken "string" "a.c",
                  mkToken "string" "b.c", mkToken "rparen" ")"] =
        .ok [⟨"set", [Arg.tok (mkToken "id" "SOURCES"),
                      Arg.tok (mkToken "string" "a.c"),
                      Arg.tok (mkToken "string" "b.c")]⟩] ∧
    Converter.write_entry 0
        ⟨"set", [Arg.tok (mkToken "id" "SOURCES"),
                 Arg.tok (mkToken "string" "a.c"),
                 Arg.tok (mkToken "string" "b.c")]⟩ =
        .ok (some "sources = ['a.c', 'b.c']\n") :=
  ⟨rfl, rfl, rfl⟩

/-- C8: a statement whose command name is neither recognized nor ignored is
converted, whatever its arguments, to exactly the comment line `# ` followed
by the command name — no error is possible on this path. -/
theorem c8_unrecognized_to_comment (name : String) (args : List Arg)
    (h1 : name ∉ Converter.ignored_funcs)
    (h2 : name ≠ "_") (h3 : name ≠ "add_subdirectory")
    (h4 : name ≠ "pkg_search_module") (h5 : name ≠ "pkg_search_modules")
    (h6 : name ≠ "find_package") (h7 : name ≠ "project") (h8 : name ≠ "set")
    (h9 : Converter.endsNL ("# " ++ name) = false) :
    Converter.write_entry 0 ⟨name, args⟩ = .ok (some ("# " ++ name ++ "\n")) := by
  have hline : Converter.writeEntryLine ⟨name, args⟩ = .ok ("# " ++ name) := by
    rw [Converter.writeEntryLine]
    try dsimp only
    rw [if_neg h2, if_neg h3, if_neg (not_or.mpr ⟨h4, h5⟩), if_neg h6,
        if_neg h7, if_neg h8]
  rw [Converter.write_entry, if_neg h1, hline]
  try dsimp only
  rw [h9]
  simp only [Bool.false_eq_true, if_false]
  rw [show Converter.indentStr 0 = "" from rfl, String.empty_append]

/-- Witness for C8 at the claim's example `option(USE_X "desc" ON)`. -/
theorem c8_unrecognized_to_comment_witness :
    Converter.write_entry 0
        ⟨"option", [Arg.tok (mkToken "id" "USE_X"),
                    Arg.tok (mkToken "string" "desc"),
                    Arg.tok (mkToken "id" "ON")]⟩ =
      .ok (some "# option\n") :=
  c8_unrecognized_to_comment "option" _ (by decide) (by decide) (by decide)
    (by decide) (by decide) (by decide) (by decide) (by decide) (by decide)

/-- C10: the parser does not require a statement to begin with an identifier.
On the input `(x)` it raises no error: the leading `(` token is taken as the
statement's name and is also the token consumed by `expect('lparen')`, giving
`Statement('(', [x])`. -/
theorem c10_lparen_statement_head :
    Lexer.lex "(x)" =
        .ok [mkToken "lparen" "(", mkToken "id" "x", mkToken "rparen" ")"] ∧
    Parser.parse [mkToken "lparen" "(", mkToken "id" "x",
                  mkToken "rparen" ")"] =
        .ok [⟨"(", [Arg.tok (mkToken "id" "x")]⟩] :=
  ⟨rfl, rfl⟩

/-- C1 (counterexample): on `pkg_search_module(GLIB glib-2.0 gobject)` the
emitted line wraps each dependency expression in an extra pair of single
quotes; it is not the line the claim predicts, in which each list element is
the bare dependency expression of the exactly-one case. -/
theorem c1_counterexample :
    Converter.write_entry 0
        ⟨"pkg_search_module", [Arg.tok (mkToken "id" "GLIB"),
                              Arg.tok (mkToken "id" "glib-2.0"),
                              Arg.tok (mkToken "id" "gobject")]⟩ =
      .ok (some "glib = ['dependency('glib-2.0')', 'dependency('gobject')']\n") ∧
    "glib = ['dependency('glib-2.0')', 'dependency('gobject')']\n" ≠
      "glib = [dependency('glib-2.0'), dependency('gobject')]\n" :=
  ⟨rfl, by decide⟩

/-- C1 (amended): for a `pkg_search_module`/`pkg_search_modules` statement
with more than one trailing module argument, the emitted line is
`binding = [...]` with the binding name lowercased, but each list element is
the dependency-declaration expression additionally wrapped in single quotes
(`'dependency('<mod>')'`), unlike the exactly-one case which emits the
expression bare. -/
theorem c1_pkg_multi_modules_quoted (name : String) (v : Token)
    (mods : List Token)
    (hname : name = "pkg_search_module" ∨ name = "pkg_search_modules")
    (hlen : 1 < mods.length) :
    Converter.writeEntryLine ⟨name, Arg.tok v :: mods.map Arg.tok⟩ =
      .ok (Converter.lowerS v.value ++ " = [" ++
           String.intercalate ", "
             (mods.map fun m =>
               Converter.quoteS ("dependency('" ++ m.value ++ "')")) ++
           "]") := by
  have hne1 : name ≠ "_" := by rcases hname with h | h <;> subst h <;> decide
  have hne2 : name ≠ "add_subdirectory" := by
    rcases hname with h | h <;> subst h <;> decide
  rw [Converter.writeEntryLine]
  try dsimp only
  rw [if_neg hne1, if_neg hne2, if_pos hname]
  simp only [Converter.argAt, List.getElem?_cons_zero, Converter.Arg.value?,
    List.drop_succ_cons, List.drop_zero, depExprs_map_tok]
  try dsimp only
  match mods, hlen with
  | m1 :: m2 :: tl, _ =>
    simp [List.map_map, Function.comp_def]

/-- Witness for C1's amended theorem at the counterexample's input. -/
theorem c1_pkg_multi_modules_quoted_witness :
    Converter.writeEntryLine
        ⟨"pkg_search_module", [Arg.tok (mkToken "id" "GLIB"),
                              Arg.tok (mkToken "id" "glib-2.0"),
                              Arg.tok (mkToken "id" "gobject")]⟩ =
      .ok "glib = ['dependency('glib-2.0')', 'dependency('gobject')']" :=
  c1_pkg_multi_modules_quoted "pkg_search_module" (mkToken "id" "GLIB")
    [mkToken "id" "glib-2.0", mkToken "id" "gobject"] (Or.inl rfl) (by decide)

/-- C3: for any statement obtained from a successful lex-and-parse of an
input (nested parenthesised argument groups included), rendering the values
of a `set` command never produces the `RuntimeError('Unknown arg type.')`
branch of `convert_args`: parser-produced argument lists contain only
`string`/`varexp`/`id` tokens at token positions (a nested group instead
fails earlier, with an attribute error, before that branch can be reached,
and on group-free argument lists rendering succeeds outright). -/
theorem c3_set_rendering_never_unknown (code : String) (ts : List Token)
    (stmts : List Statement) (s : Statement)
    (_hlex : Lexer.lex code = .ok ts) (hparse : Parser.parse ts = .ok stmts)
    (hmem : s ∈ stmts) (_hname : s.name = "set") :
    Converter.convert_args (s.args.drop 1) ≠
      .error Converter.PyError.unknownArgType := by
  have hgood : ArgsGood (s.args.drop 1) :=
    argsGood_drop (parseAux_good _ _ _ hparse s hmem) 1
  intro h
  rw [Converter.convert_args] at h
  rcases haux : Converter.convertArgsAux (s.args.drop 1) with e | res
  · rw [haux] at h
    dsimp only at h
    injection h with h'
    exact convertArgsAux_ne_unknown _ hgood (by rw [haux, h'])
  · rw [haux] at h
    dsimp only at h
    by_cases hl : res.length > 1
    · rw [if_pos hl] at h; exact absurd h (by simp)
    · rw [if_neg hl] at h
      match res with
      | [r] => exact absurd h (by simp)
      | [] => exact absurd h (by simp)

/-- Witness for C3 on `set(A (b))`, whose parsed argument list contains a
nested group. -/
theorem c3_set_rendering_never_unknown_witness :
    Converter.convert_args
        ((⟨"set", [Arg.tok (mkToken "id" "A"),
                   Arg.group [Arg.tok (mkToken "id" "b")]]⟩ :
          Statement).args.drop 1) ≠
      .error Converter.PyError.unknownArgType :=
  c3_set_rendering_never_unknown "set(A (b))"
    [mkToken "id" "set", mkToken "lparen" "(", mkToken "id" "A",
     mkToken "lparen" "(", mkToken "id" "b", mkToken "rparen" ")",
     mkToken "rparen" ")"]
    [⟨"set", [Arg.tok (mkToken "id" "A"),
              Arg.group [Arg.tok (mkToken "id" "b")]]⟩]
    ⟨"set", [Arg.tok (mkToken "id" "A"),
             Arg.group [Arg.tok (mkToken "id" "b")]]⟩
    rfl rfl (List.Mem.head _) rfl

/-- C5 (counterexample): `$\x7ba b\x7d` contains `$\x7bs\x7d` with `s = "a b"`
non-empty and free of `\x7d`, yet the lexer emits no VariableExpansion token
at all: the space is outside the `varexp` pattern's character class, so the
broad `id` pattern matches `$\x7ba` instead. -/
theorem c5_counterexample :
    Lexer.lex "$\x7ba b\x7d" =
        .ok [mkToken "id" "$\x7ba", mkToken "id" "b\x7d"] ∧
    ∀ t ∈ [mkToken "id" "$\x7ba", mkToken "id" "b\x7d"], t.tid ≠ "varexp" :=
  ⟨rfl, by decide⟩

/-- C5 (amended): when the lexer's scan reaches a position where the
remaining input is `$\x7b` followed by a non-empty run `s` of characters from
the class `[-_0-9a-z/A-Z.]` (not: arbitrary characters other than `\x7d`) and
then `\x7d`, it emits a single VariableExpansion token whose payload is `s`,
resuming after the closing brace. -/
theorem c5_varexp_charset (s rest : List Char) (h1 : s ≠ [])
    (h2 : ∀ c ∈ s, Lexer.varexpClass c = true) :
    Lexer.lexStep ('$' :: '\x7b' :: (s ++ '\x7d' :: rest)) =
      .ok (some (mkToken "varexp" s.asString), rest) := by
  have ht : (s ++ '\x7d' :: rest).takeWhile Lexer.varexpClass = s :=
    takeWhile_all_append _ _ s h2 (by decide)
  have hd : (s ++ '\x7d' :: rest).dropWhile Lexer.varexpClass = '\x7d' :: rest :=
    dropWhile_all_append _ _ s h2 (by decide)
  rw [Lexer.lexStep]
  rw [show Lexer.matchIgnore ('$' :: '\x7b' :: (s ++ '\x7d' :: rest)) = none
      from rfl]
  rw [show Lexer.matchString ('$' :: '\x7b' :: (s ++ '\x7d' :: rest)) = none
      from rfl]
  rw [Lexer.matchVarexp]
  try dsimp only
  rw [ht, hd, if_neg h1]
  simp

/-- Witness for C5's amended theorem on `$\x7ba\x7d`. -/
theorem c5_varexp_charset_witness :
    Lexer.lexStep ('$' :: '\x7b' :: (['a'] ++ '\x7d' :: [])) =
      .ok (some (mkToken "varexp" "a"), []) :=
  c5_varexp_charset ['a'] [] (by decide) (by decide)

/-- C7: `project(Foo CXX)` converts to exactly `project('Foo', 'cpp')`, and in
general a `project` statement keeps its name argument unmodified while each
trailing argument is lowercased with the lowercased text `cxx` rewritten to
`cpp` (hence case-insensitively in the original text), every argument
(name included) being single-quoted in the output. -/
theorem c7_project_conversion :
    Converter.write_entry 0
        ⟨"project", [Arg.tok (mkToken "id" "Foo"),
                     Arg.tok (mkToken "id" "CXX")]⟩ =
      .ok (some "project('Foo', 'cpp')\n") ∧
    ∀ (n : Token) (langs : List Token),
      Converter.writeEntryLine ⟨"project", Arg.tok n :: langs.map Arg.tok⟩ =
        .ok ("project(" ++
             String.intercalate ", "
               (Converter.quoteS n.value ::
                langs.map (fun t => Converter.quoteS
                  (if Converter.lowerS t.value = "cxx" then "cpp"
                   else Converter.lowerS t.value))) ++ ")") := by
  constructor
  · rfl
  · intro n langs
    rw [Converter.writeEntryLine]
    try dsimp only
    rw [if_neg (by decide : ¬("project" : String) = "_"),
        if_neg (by decide : ¬("project" : String) = "add_subdirectory"),
        if_neg (by decide :
          ¬(("project" : String) = "pkg_search_module" ∨
            ("project" : String) = "pkg_search_modules")),
        if_neg (by decide : ¬("project" : String) = "find_package"),
        if_pos (rfl : ("project" : String) = "project")]
    simp only [Converter.argAt, List.getElem?_cons_zero, Converter.Arg.value?,
      List.drop_succ_cons, List.drop_zero, projLangs_map_tok]
    simp [List.map_map, Function.comp_def]

/-- C9: processing an `add_subdirectory(D)` statement first runs the whole
conversion of directory `D` (joined onto the current directory) and only then
writes the quoted `subdir('D')` line into the current directory's output,
before the remaining statements are processed.  When `D` has no input file
the recursion contributes exactly one warning — no output file is opened or
written for `D` — and both the `subdir('D')` line and the processing of the
remaining statements go ahead unaffected. -/
theorem c9_subdir_recursion_order (fuel : Nat) (fs : String → Option String)
    (subdir : String) (d : Token) (rest : List Statement)
    (hf : 0 < fuel) :
    (fs (Converter.osJoin subdir d.value) = none →
      Converter.convertStmts fuel fs subdir
          (⟨"add_subdirectory", [Arg.tok d]⟩ :: rest) =
        (Converter.convertStmts fuel fs subdir rest).map
          (fun r => Converter.Event.warn (Converter.osJoin subdir d.value) ::
            Converter.Event.writeChunk subdir
              ("subdir('" ++ d.value ++ "')" ++ "\n") :: r)) ∧
    (∀ evs, Converter.convert fuel fs (Converter.osJoin subdir d.value) =
        .ok evs →
      Converter.convertStmts fuel fs subdir
          (⟨"add_subdirectory", [Arg.tok d]⟩ :: rest) =
        (Converter.convertStmts fuel fs subdir rest).map
          (fun r => evs ++ Converter.Event.writeChunk subdir
            ("subdir('" ++ d.value ++ "')" ++ "\n") :: r)) := by
  obtain ⟨m, rfl⟩ : ∃ m, fuel = m + 1 := ⟨fuel - 1, by omega⟩
  have hwe : Converter.write_entry 0 ⟨"add_subdirectory", [Arg.tok d]⟩ =
      .ok (some ("subdir('" ++ d.value ++ "')" ++ "\n")) := by
    rw [Converter.write_entry]
    try dsimp only
    rw [if_neg (by decide :
      ("add_subdirectory" : String) ∉ Converter.ignored_funcs)]
    rw [Converter.writeEntryLine]
    try dsimp only
    rw [if_neg (by decide : ¬("add_subdirectory" : String) = "_"),
        if_pos (rfl : ("add_subdirectory" : String) = "add_subdirectory")]
    simp only [Converter.argAt, List.getElem?_cons_zero, Converter.Arg.value?]
    try dsimp only
    rw [endsNL_close_paren]
    simp only [Bool.false_eq_true, if_false]
    rw [show Converter.indentStr 0 = "" from rfl, String.empty_append]
  constructor
  · intro hfs
    rw [Converter.convertStmts.eq_def]
    try dsimp only
    rw [if_pos (rfl : ("add_subdirectory" : String) = "add_subdirectory")]
    simp only [Converter.argAt, List.getElem?_cons_zero, Converter.Arg.value?]
    try dsimp only
    rw [Converter.convert.eq_def]
    try dsimp only
    rw [hfs]
    try dsimp only
    rw [hwe]
    try dsimp only
    rcases hrest : Converter.convertStmts (m + 1) fs subdir rest with e | r
    · rfl
    · simp [Except.map]
  · intro evs hconv
    rw [Converter.convertStmts.eq_def]
    try dsimp only
    rw [if_pos (rfl : ("add_subdirectory" : String) = "add_subdirectory")]
    simp only [Converter.argAt, List.getElem?_cons_zero, Converter.Arg.value?]
    try dsimp only
    rw [hconv]
    try dsimp only
    rw [hwe]
    try dsimp only
    rcases hrest : Converter.convertStmts (m + 1) fs subdir rest with e | r
    · rfl
    · simp [Except.map]

/-- Witness for C9 in a filesystem with no input files at all: converting the
`add_subdirectory(tests)` statement for root `root` warns about `root/tests`
and still writes the `subdir('tests')` line. -/
theorem c9_subdir_recursion_order_witness :
    Converter.convertStmts 1 (fun _ => none) "root"
        [⟨"add_subdirectory", [Arg.tok (mkToken "id" "tests")]⟩] =
      (Converter.convertStmts 1 (fun _ => none) "root" []).map
        (fun r => Converter.Event.warn
            (Converter.osJoin "root" (mkToken "id" "tests").value) ::
          Converter.Event.writeChunk "root"
            ("subdir('" ++ (mkToken "id" "tests").value ++ "')" ++ "\n") ::
          r) :=
  (c9_subdir_recursion_order 1 (fun _ => none) "root" (mkToken "id" "tests")
    [] (by decide)).1 rfl

end Claims

end cmake2meson
